import Mathlib

/-!
Verification development for the EPICS MIDAS frontend (`src/epics_fe.cxx`).

The frontend bridges EPICS process variables to a MIDAS ODB / event stream:
`frontend_init` loads settings and sizes the `Measured` array, `epics_init`
connects the configured channels, `epics_loop` periodically sweeps all
channels through `epics_get_measured`, and `epics_read` emits a bank of
float values.

Modelling conventions:
* 32-bit float values are represented by their bit patterns as `Nat`
  (no claim depends on floating-point arithmetic; the zero float has bit
  pattern `0`).
* MIDAS status codes are the integer constants from `midas.h`.
* Blocking EPICS calls (`ca_pend_io` after `ca_create_channel` / `ca_get`)
  are modelled by an outcome oracle per channel: either the operation
  completes in time or it times out; the numeric timeout passed to
  `ca_pend_io` is recorded in the result.
* The `midas::odb` objects auto-bind to the ODB: `epics_get_measured`
  connects a fresh `settings` object to `/Equipment/EPICS/Settings` on
  every call, so the `enabled`/`name` arguments below stand for the
  CURRENT contents of `Enabled[channel]` / `Names[channel]` at call time.
* `DWORD` clock arithmetic (`ss_millitime() - last_time_measured`) is
  modelled as subtraction modulo `2^32`.
-/

namespace EpicsFE

/-- `FE_SUCCESS` from `midas.h`. -/
def FE_SUCCESS : Int := 1

/-- `FE_ERR_HW` from `midas.h`. -/
def FE_ERR_HW : Int := 3

/-- `CM_SUCCESS` from `midas.h`; `epics_loop` always returns it. -/
def CM_SUCCESS : Int := 1

/-- `#define CAGET_TIMEOUT 30.0` — timeout in seconds for caget operations. -/
def CAGET_TIMEOUT : Nat := 30

/-- The literal `5.0`-second timeout passed to `ca_pend_io` in `epics_init`. -/
def CA_CONNECT_TIMEOUT : Nat := 5

/-- The literal `500` passed to `ss_sleep` in `epics_loop`
("don't eat all CPU"). -/
def SS_SLEEP_PAUSE : Nat := 500

/-- The default `"Update interval"` value (`10`) installed by
`frontend_init`'s settings initializer. -/
def DEFAULT_UPDATE_INTERVAL : Nat := 10

/-- `2^32`, the modulus of `DWORD` arithmetic. -/
def DWORD_MOD : Nat := 4294967296

/-- Unsigned 32-bit subtraction `a - b` as computed on `DWORD`s
(for `a, b < DWORD_MOD`). -/
def dwordSub (a b : Nat) : Nat := (a + DWORD_MOD - b) % DWORD_MOD

/-- Outcome of one blocking `ca_get` + `ca_pend_io(CAGET_TIMEOUT)` pair:
either the value arrives in time or `ca_pend_io` returns `ECA_TIMEOUT`. -/
inductive ReadOutcome where
  | ok (v : Nat)
  | timeout
deriving DecidableEq, Repr

/-- Result of one `epics_get_measured` call: the returned status, the
`Variables/Measured` array afterwards, the `cm_msg(MERROR, ...)` text if
one was emitted, whether a `ca_get` was issued, and the timeout handed to
`ca_pend_io` when it was. -/
structure GetMeasuredResult where
  status : Int
  store : List Nat
  error : Option String
  didRead : Bool
  timeoutUsed : Option Nat
deriving DecidableEq, Repr

/-- Shallow embedding of `epics_get_measured(int channel)`.

Arguments mirror the state the C function consults:
* `hasHandle` — `beamline.measured[channel] != nullptr`;
* `enabled` — the CURRENT `settings["Enabled"][channel]` (the function
  connects a fresh `midas::odb settings` to `/Equipment/EPICS/Settings`
  on every call, so this is the live ODB value, not the init-time one);
* `name` — the CURRENT `settings["Names"][channel]`;
* `outcome` — result of `ca_get` + `ca_pend_io(CAGET_TIMEOUT)`;
* `store` — `beamline.variables["Measured"]` before the call.

The C code returns `FE_SUCCESS` without touching anything when the handle
is null (write-only channel) or when the channel is currently disabled;
otherwise it issues the read, reports `"Timeout on EPICS channel <name>"`
and returns `FE_ERR_HW` on timeout, and stores the float into
`Measured[channel]` returning `FE_SUCCESS` on success. -/
def epics_get_measured (hasHandle enabled : Bool) (name : String)
    (outcome : ReadOutcome) (store : List Nat) (channel : Nat) :
    GetMeasuredResult :=
  if hasHandle = false then
    { status := FE_SUCCESS, store := store, error := none,
      didRead := false, timeoutUsed := none }
  else if enabled = false then
    { status := FE_SUCCESS, store := store, error := none,
      didRead := false, timeoutUsed := none }
  else
    match outcome with
    | .timeout =>
        { status := FE_ERR_HW, store := store,
          error := some ("Timeout on EPICS channel " ++ name),
          didRead := true, timeoutUsed := some CAGET_TIMEOUT }
    | .ok v =>
        { status := FE_SUCCESS, store := store.set channel v,
          error := none, didRead := true, timeoutUsed := some CAGET_TIMEOUT }

/-- Per-channel environment a sweep sees: handle presence, the live
`Enabled`/`Names` entries, and the outcome of this sweep's read. -/
structure ChanEnv where
  hasHandle : Bool
  enabled : Bool
  name : String
  outcome : ReadOutcome
deriving DecidableEq, Repr

/-- The value a channel's `epics_get_measured` call stores this sweep, if
any: `some v` exactly when the channel has a handle, is enabled, and the
read returns `v` in time. -/
def okRead (c : ChanEnv) : Option Nat :=
  if c.hasHandle && c.enabled then
    match c.outcome with
    | .ok v => some v
    | .timeout => none
  else none

/-- The body of `epics_loop`'s `for` loop over a list of channel indices:
each index is passed to `epics_get_measured` (its status being discarded,
exactly as in the C code), threading the `Measured` array through and
collecting the error messages emitted. -/
def sweepChannels (env : Nat → ChanEnv) :
    List Nat → List Nat → List Nat × List String
  | [], store => (store, [])
  | i :: rest, store =>
      let r := epics_get_measured (env i).hasHandle (env i).enabled
        (env i).name (env i).outcome store i
      let p := sweepChannels env rest r.store
      (p.1, r.error.toList ++ p.2)

/-- One full sweep `for (int i = 0; i < beamline.length; i++)
epics_get_measured(i)` over `n` channels. -/
def epics_sweep (env : Nat → ChanEnv) (n : Nat) (store : List Nat) :
    List Nat × List String :=
  sweepChannels env (List.range n) store

/-- The `static DWORD last_time_measured` plus the `Measured` array:
the state `epics_loop` carries between invocations. -/
structure LoopState where
  last_time_measured : Nat
  store : List Nat
deriving DecidableEq, Repr

/-- What one `epics_loop` invocation produces: the successor state,
whether a sweep ran, the argument passed to `ss_sleep`, and the returned
status. -/
structure LoopResult where
  state : LoopState
  swept : Bool
  sleepMs : Nat
  status : Int
deriving DecidableEq, Repr

/-- Shallow embedding of one `epics_loop()` invocation.

`now` is the value of the first `ss_millitime()` call (the one in the
`if` condition) and `nowAfter` the value of the second one (taken after
the sweep, stored into `last_time_measured`).  A sweep runs exactly when
`ss_millitime() - last_time_measured > beamline.updateInterval` in
`DWORD` arithmetic; either way the invocation ends with `ss_sleep(500)`
and returns `CM_SUCCESS`. -/
def epics_loop (env : Nat → ChanEnv) (updateInterval : Nat)
    (now nowAfter : Nat) (st : LoopState) : LoopResult :=
  if updateInterval < dwordSub now st.last_time_measured then
    { state := { last_time_measured := nowAfter,
                 store := (epics_sweep env st.store.length st.store).1 },
      swept := true, sleepMs := SS_SLEEP_PAUSE, status := CM_SUCCESS }
  else
    { state := st, swept := false, sleepMs := SS_SLEEP_PAUSE,
      status := CM_SUCCESS }

/-- One row of the init-time settings consulted by `epics_init`:
`settings["Enabled"][i]` and `settings["CA Name"][i]`. -/
structure ChannelSettings where
  enabled : Bool
  caName : String
deriving DecidableEq, Repr

/-- Outcome of `ca_create_channel` + `ca_pend_io(5.0)` for one channel:
the connect completes in time, or `ca_pend_io` returns `ECA_TIMEOUT`. -/
inductive ConnectOutcome where
  | ok
  | timeout
deriving DecidableEq, Repr

/-- Per-channel outcome of `epics_init`'s connect loop. -/
inductive ChanInit where
  /-- Disabled, or empty `CA Name`: no `ca_create_channel` call, handle
  stays null. -/
  | skipped
  /-- `ca_create_channel` issued and `ca_pend_io(5.0)` completed. -/
  | connected
  /-- `ca_pend_io(5.0)` returned `ECA_TIMEOUT`: error reported, loop
  broken out of. -/
  | failedTimeout
  /-- Loop already broken before reaching this channel: handle stays the
  `calloc`-zeroed null, connection never attempted. -/
  | notAttempted
deriving DecidableEq, Repr

/-- The `for` loop of `epics_init`: disabled channels and channels with
an empty `CA Name` are skipped; otherwise the connect is attempted and a
timeout sets `status = FE_ERR_HW` and `break`s (later channels are never
attempted, earlier ones keep the handles already created — no rollback).
On a run with no timeout the function falls through to `return status`
with a success status (`ECA_NORMAL` and `FE_SUCCESS` are both `1`). -/
def epics_init_loop :
    List (ChannelSettings × ConnectOutcome) → Int × List ChanInit
  | [] => (FE_SUCCESS, [])
  | (c, o) :: rest =>
      if c.enabled = false then
        let p := epics_init_loop rest
        (p.1, ChanInit.skipped :: p.2)
      else if c.caName = "" then
        let p := epics_init_loop rest
        (p.1, ChanInit.skipped :: p.2)
      else
        match o with
        | .ok =>
            let p := epics_init_loop rest
            (p.1, ChanInit.connected :: p.2)
        | .timeout =>
            (FE_ERR_HW,
             ChanInit.failedTimeout :: rest.map (fun _ => ChanInit.notAttempted))

/-- Shallow embedding of `epics_init()`: `ca_task_initialize` failure
returns `FE_ERR_HW` before any channel is touched; otherwise the connect
loop runs over all channels. -/
def epics_init (driverOk : Bool)
    (channels : List (ChannelSettings × ConnectOutcome)) :
    Int × List ChanInit :=
  if driverOk = false then (FE_ERR_HW, [])
  else epics_init_loop channels

/-- The per-channel outcome of `epics_init`'s loop on a run where the
channel is reached and its connect (if any) succeeds. -/
def chanInitResult (c : ChannelSettings) : ChanInit :=
  if c.enabled = false then ChanInit.skipped
  else if c.caName = "" then ChanInit.skipped
  else ChanInit.connected

/-- The float values `epics_read` copies into the `"E000"` bank:
`beamline.variables["Measured"][i]` for `i = 0, ..., beamline.length-1`,
in index order. -/
def epics_read_values (n : Nat) (measured : List Nat) : List Nat :=
  (List.range n).map (fun i => measured.getD i 0)

/-- Little-endian byte serialization of one 4-byte float (by its 32-bit
pattern), as `bk_create(..., TID_FLOAT, ...)` lays each value out. -/
def float32Bytes (v : Nat) : List Nat :=
  [v % 256, v / 256 % 256, v / 65536 % 256, v / 16777216 % 256]

/-- The data block of the `"E000"` bank emitted by `epics_read`: the `n`
measured float values serialized consecutively in channel-index order
(`bk_close` sets the bank's data length to exactly the bytes written
between `bk_create` and `bk_close`). -/
def epics_read_bank (n : Nat) (measured : List Nat) : List Nat :=
  ((epics_read_values n measured).map float32Bytes).flatten

/-- `resize` on the ODB `Measured` float array (`db_set_num_values`
semantics, as used by `midas::odb::resize`): existing leading values are
preserved, new trailing slots are zero-filled. -/
def odbResize (l : List Nat) (n : Nat) : List Nat :=
  l.take n ++ List.replicate (n - l.length) 0

/-- The `Measured`-array part of `frontend_init`: if
`/Equipment/EPICS/Variables/Measured` does not exist it is created as a
zero `std::vector<float>` of length `n` (= `settings["Names"].size()`);
if it exists (holding `prior` from an earlier run) it is resized to `n`. -/
def frontend_init_measured (existsPrior : Bool) (prior : List Nat)
    (n : Nat) : List Nat :=
  if existsPrior = false then List.replicate n 0
  else odbResize prior n

/-! ### Helper lemmas about one sweep -/

/-- The `Measured` array after one `epics_get_measured` call: set at the
channel's own index on a successful read, untouched otherwise. -/
lemma getMeasured_store_eq (c : ChanEnv) (store : List Nat) (i : Nat) :
    (epics_get_measured c.hasHandle c.enabled c.name c.outcome store i).store
      = match okRead c with
        | some v => store.set i v
        | none => store := by
  rcases c with ⟨h, e, nm, o⟩
  cases h <;> cases e <;> cases o <;> simp [epics_get_measured, okRead]

/-- The error message of one `epics_get_measured` call: emitted exactly
on a handled, enabled, timed-out read. -/
lemma getMeasured_error_eq (c : ChanEnv) (store : List Nat) (i : Nat) :
    (epics_get_measured c.hasHandle c.enabled c.name c.outcome store i).error
      = if c.hasHandle = true ∧ c.enabled = true ∧ c.outcome = ReadOutcome.timeout
        then some ("Timeout on EPICS channel " ++ c.name)
        else none := by
  rcases c with ⟨h, e, nm, o⟩
  cases h <;> cases e <;> cases o <;> simp [epics_get_measured]

/-- A sweep never changes the length of the `Measured` array. -/
lemma sweepChannels_length (env : Nat → ChanEnv) (l : List Nat)
    (store : List Nat) :
    (sweepChannels env l store).1.length = store.length := by
  induction l generalizing store with
  | nil => rfl
  | cons i rest ih =>
      simp only [sweepChannels]
      rw [ih, getMeasured_store_eq (env i) store i]
      cases okRead (env i) <;> simp

/-- A slot whose index is not in the processed list is untouched. -/
lemma sweepChannels_get_notMem (env : Nat → ChanEnv) (l : List Nat)
    (store : List Nat) (j : Nat) (hj : j ∉ l) :
    (sweepChannels env l store).1[j]? = store[j]? := by
  induction l generalizing store with
  | nil => rfl
  | cons i rest ih =>
      have hij : i ≠ j := fun h => hj (h ▸ List.mem_cons_self i rest)
      have hjr : j ∉ rest := fun h => hj (List.mem_cons_of_mem i h)
      simp only [sweepChannels]
      rw [ih _ hjr, getMeasured_store_eq (env i) store i]
      cases okRead (env i) with
      | none => rfl
      | some v => exact List.getElem?_set_ne hij

/-- A slot whose index is processed ends up holding the successfully read
value, and is untouched when its channel is skipped or times out. -/
lemma sweepChannels_get_mem (env : Nat → ChanEnv) (l : List Nat)
    (store : List Nat) (j : Nat) (hnd : l.Nodup) (hj : j ∈ l) :
    (sweepChannels env l store).1[j]?
      = match okRead (env j) with
        | some v => if j < store.length then some v else none
        | none => store[j]? := by
  induction l generalizing store with
  | nil => cases hj
  | cons i rest ih =>
      have hndr : rest.Nodup := (List.nodup_cons.mp hnd).2
      by_cases hij : i = j
      · subst hij
        have hir : i ∉ rest := (List.nodup_cons.mp hnd).1
        simp only [sweepChannels]
        rw [sweepChannels_get_notMem env rest _ i hir,
          getMeasured_store_eq (env i) store i]
        cases okRead (env i) with
        | none => rfl
        | some v =>
            show (store.set i v)[i]? = if i < store.length then some v else none
            by_cases hlt : i < store.length
            · rw [if_pos hlt]
              exact List.getElem?_set_eq_of_lt v hlt
            · rw [if_neg hlt, List.set_eq_of_length_le (by omega),
                List.getElem?_eq_none (by omega)]
      · have hjr : j ∈ rest := (List.mem_cons.mp hj).resolve_left
          (fun h => hij h.symm)
        simp only [sweepChannels]
        rw [ih _ hndr hjr, getMeasured_store_eq (env i) store i]
        cases okRead (env i) with
        | none => rfl
        | some v =>
            cases okRead (env j) with
            | none => exact List.getElem?_set_ne hij
            | some w =>
                show (if j < (store.set i v).length then some w else none)
                  = if j < store.length then some w else none
                rw [List.length_set]

/-- The timeout message of a handled, enabled, timed-out channel in the
processed list appears among the sweep's emitted errors. -/
lemma sweepChannels_error_mem (env : Nat → ChanEnv) (l : List Nat)
    (store : List Nat) (k : Nat) (hk : k ∈ l)
    (hh : (env k).hasHandle = true) (he : (env k).enabled = true)
    (ht : (env k).outcome = ReadOutcome.timeout) :
    ("Timeout on EPICS channel " ++ (env k).name)
      ∈ (sweepChannels env l store).2 := by
  induction l generalizing store with
  | nil => cases hk
  | cons i rest ih =>
      simp only [sweepChannels]
      by_cases hik : i = k
      · subst hik
        rw [getMeasured_error_eq (env i) store i]
        simp [hh, he, ht]
      · have hkr : k ∈ rest := (List.mem_cons.mp hk).resolve_left
          (fun h => hik h.symm)
        exact List.mem_append_right _ (ih _ hkr)

/-- C1: a sweep over the `n` configured channels in which channel `k`'s
read times out is not aborted: slot `k` of `Measured` keeps its prior
value, the timeout is reported as an error naming channel `k`, and every
other channel whose read succeeds has its slot updated with the newly
read value. -/
theorem c1_read_timeout_isolated (env : Nat → ChanEnv) (n k : Nat)
    (store : List Nat) (hlen : store.length = n) (hk : k < n)
    (hh : (env k).hasHandle = true) (he : (env k).enabled = true)
    (ht : (env k).outcome = ReadOutcome.timeout) :
    (epics_sweep env n store).1[k]? = store[k]?
    ∧ ("Timeout on EPICS channel " ++ (env k).name)
        ∈ (epics_sweep env n store).2
    ∧ ∀ j v, j < n → (env j).hasHandle = true → (env j).enabled = true →
        (env j).outcome = ReadOutcome.ok v →
        (epics_sweep env n store).1[j]? = some v := by
  refine ⟨?_, ?_, ?_⟩
  · rw [epics_sweep, sweepChannels_get_mem env (List.range n) store k
      (List.nodup_range n) (List.mem_range.mpr hk)]
    simp [okRead, hh, he, ht]
  · exact sweepChannels_error_mem env (List.range n) store k
      (List.mem_range.mpr hk) hh he ht
  · intro j v hj hhj hej hoj
    rw [epics_sweep, sweepChannels_get_mem env (List.range n) store j
      (List.nodup_range n) (List.mem_range.mpr hj)]
    simp [okRead, hhj, hej, hoj, hlen ▸ hj]

/-- Channel environment for the `c1` witness: three handled, enabled
channels; channel 1 times out, channels 0 and 2 read successfully. -/
def envC1 : Nat → ChanEnv := fun i =>
  if i = 1 then { hasHandle := true, enabled := true,
                  name := "UCN:HE4:LVL1", outcome := ReadOutcome.timeout }
  else { hasHandle := true, enabled := true,
         name := "UCN:HE4:FLOW", outcome := ReadOutcome.ok 42 }

/-- Witness for `c1_read_timeout_isolated` at `n = 3`, `k = 1`,
prior store `[10, 11, 12]`. -/
theorem c1_read_timeout_isolated_witness :
    ([10, 11, 12] : List Nat).length = 3 ∧ 1 < 3
    ∧ (envC1 1).hasHandle = true ∧ (envC1 1).enabled = true
    ∧ (envC1 1).outcome = ReadOutcome.timeout
    ∧ ((epics_sweep envC1 3 [10, 11, 12]).1[1]? = ([10, 11, 12] : List Nat)[1]?
      ∧ ("Timeout on EPICS channel " ++ (envC1 1).name)
          ∈ (epics_sweep envC1 3 [10, 11, 12]).2
      ∧ ∀ j v, j < 3 → (envC1 j).hasHandle = true → (envC1 j).enabled = true →
          (envC1 j).outcome = ReadOutcome.ok v →
          (epics_sweep envC1 3 [10, 11, 12]).1[j]? = some v) :=
  ⟨rfl, by decide, rfl, rfl, rfl,
    c1_read_timeout_isolated envC1 3 1 [10, 11, 12] rfl (by decide) rfl rfl rfl⟩

/-! ### Initialization (C2) -/

/-- C2: if an enabled channel with a non-empty `CA Name` times out while
connecting and every channel before it connected or was skipped, then
`epics_init` returns `FE_ERR_HW` (not a success result), the channels
before the failing one keep their connections (no rollback), and no
channel after the failing one is attempted. -/
theorem c2_connect_timeout_fatal
    (pre post : List (ChannelSettings × ConnectOutcome)) (c : ChannelSettings)
    (hpre : ∀ x ∈ pre,
      x.1.enabled = false ∨ x.1.caName = "" ∨ x.2 = ConnectOutcome.ok)
    (hen : c.enabled = true) (hname : c.caName ≠ "") :
    epics_init true (pre ++ (c, ConnectOutcome.timeout) :: post)
      = (FE_ERR_HW,
         pre.map (fun x => chanInitResult x.1)
           ++ ChanInit.failedTimeout
             :: post.map (fun _ => ChanInit.notAttempted))
    ∧ FE_ERR_HW ≠ FE_SUCCESS := by
  refine ⟨?_, by decide⟩
  show epics_init_loop (pre ++ (c, ConnectOutcome.timeout) :: post) = _
  induction pre with
  | nil =>
      simp only [List.nil_append, List.map_nil, epics_init_loop]
      rw [if_neg (by simp [hen]), if_neg hname]
  | cons x rest ih =>
      obtain ⟨cs, co⟩ := x
      have hx := hpre (cs, co) (List.mem_cons_self _ _)
      have hrest : ∀ y ∈ rest,
          y.1.enabled = false ∨ y.1.caName = "" ∨ y.2 = ConnectOutcome.ok :=
        fun y hy => hpre y (List.mem_cons_of_mem _ hy)
      have ih2 := ih hrest
      simp only [List.cons_append, List.map_cons]
      cases hEn : cs.enabled with
      | false => simp [epics_init_loop, hEn, ih2, chanInitResult]
      | true =>
          by_cases hn : cs.caName = ""
          · simp [epics_init_loop, hEn, hn, ih2, chanInitResult]
          · have hok : co = ConnectOutcome.ok := by
              rcases hx with h | h | h
              · simp [hEn] at h
              · exact absurd h hn
              · exact h
            subst hok
            simp [epics_init_loop, hEn, hn, ih2, chanInitResult]

/-- The `pre` channel list for the `c2` witness: a disabled channel, an
enabled channel with an empty address, and a successfully connected one. -/
def preC2 : List (ChannelSettings × ConnectOutcome) :=
  [({ enabled := false, caName := "UCN:CHA" }, ConnectOutcome.ok),
   ({ enabled := true, caName := "" }, ConnectOutcome.ok),
   ({ enabled := true, caName := "UCN:CHB" }, ConnectOutcome.ok)]

/-- The channel after the failing one for the `c2` witness. -/
def postC2 : List (ChannelSettings × ConnectOutcome) :=
  [({ enabled := true, caName := "UCN:CHD" }, ConnectOutcome.ok)]

/-- The failing channel for the `c2` witness. -/
def failC2 : ChannelSettings := { enabled := true, caName := "UCN:CHC" }

/-- Witness for `c2_connect_timeout_fatal` on a concrete 5-channel
configuration whose fourth channel times out while connecting. -/
theorem c2_connect_timeout_fatal_witness :
    (∀ x ∈ preC2,
      x.1.enabled = false ∨ x.1.caName = "" ∨ x.2 = ConnectOutcome.ok)
    ∧ failC2.enabled = true ∧ failC2.caName ≠ ""
    ∧ (epics_init true (preC2 ++ (failC2, ConnectOutcome.timeout) :: postC2)
        = (FE_ERR_HW,
           preC2.map (fun x => chanInitResult x.1)
             ++ ChanInit.failedTimeout
               :: postC2.map (fun _ => ChanInit.notAttempted))
      ∧ FE_ERR_HW ≠ FE_SUCCESS) :=
  ⟨by decide, rfl, by decide,
    c2_connect_timeout_fatal preC2 postC2 failC2 (by decide) rfl (by decide)⟩

/-! ### Poll-loop timing (C3, C10) -/

/-- Trivial channel environment (no handles) for the loop-timing
witnesses. -/
def envC3 : Nat → ChanEnv := fun _ =>
  { hasHandle := false, enabled := false, name := "",
    outcome := ReadOutcome.timeout }

/-- Unsigned subtraction agrees with `Nat` subtraction when no wraparound
occurs in the window. -/
lemma dwordSub_of_le (a b : Nat) (hba : b ≤ a) (ha : a < DWORD_MOD) :
    dwordSub a b = a - b := by
  simp only [dwordSub, DWORD_MOD] at *
  omega

/-- `epics_loop` sweeps exactly when the elapsed `DWORD` time since
`last_time_measured` exceeds the configured interval. -/
lemma epics_loop_swept_iff (env : Nat → ChanEnv)
    (updateInterval now nowAfter : Nat) (st : LoopState) :
    (epics_loop env updateInterval now nowAfter st).swept = true
      ↔ updateInterval < dwordSub now st.last_time_measured := by
  unfold epics_loop
  split <;> simp [*]

/-- Every `epics_loop` invocation ends with the fixed `ss_sleep(500)`. -/
lemma epics_loop_sleep (env : Nat → ChanEnv)
    (updateInterval now nowAfter : Nat) (st : LoopState) :
    (epics_loop env updateInterval now nowAfter st).sleepMs
      = SS_SLEEP_PAUSE := by
  unfold epics_loop
  split <;> rfl

/-- After a sweep, `last_time_measured` holds the post-sweep clock
reading. -/
lemma epics_loop_last_of_swept (env : Nat → ChanEnv)
    (updateInterval now nowAfter : Nat) (st : LoopState)
    (h : (epics_loop env updateInterval now nowAfter st).swept = true) :
    (epics_loop env updateInterval now nowAfter st).state.last_time_measured
      = nowAfter := by
  rw [epics_loop_swept_iff] at h
  unfold epics_loop
  rw [if_pos h]

/-- C3: consecutive sweep starts are separated by more than the
configured update interval.  If one `epics_loop` invocation sweeps (its
clock reads being `s1` at the check and `e1` after the sweep), and a
later invocation on the resulting state sweeps at clock reading `now2`,
then `now2 - s1` exceeds `updateInterval`; moreover every invocation ends
by sleeping for the fixed `SS_SLEEP_PAUSE` rather than busy-spinning.
(Clock readings are monotone and do not wrap in the window.) -/
theorem c3_sweep_spacing (env1 env2 : Nat → ChanEnv)
    (updateInterval s1 e1 now2 e2 : Nat) (st0 : LoopState)
    (hm1 : s1 ≤ e1) (hm2 : e1 ≤ now2) (hb : now2 < DWORD_MOD)
    (h1 : (epics_loop env1 updateInterval s1 e1 st0).swept = true)
    (h2 : (epics_loop env2 updateInterval now2 e2
            (epics_loop env1 updateInterval s1 e1 st0).state).swept = true) :
    updateInterval < now2 - s1
    ∧ (epics_loop env2 updateInterval now2 e2
        (epics_loop env1 updateInterval s1 e1 st0).state).sleepMs
      = SS_SLEEP_PAUSE := by
  have hlast := epics_loop_last_of_swept env1 updateInterval s1 e1 st0 h1
  rw [epics_loop_swept_iff, hlast, dwordSub_of_le now2 e1 hm2 hb] at h2
  exact ⟨by omega, epics_loop_sleep env2 updateInterval now2 e2 _⟩

/-- Witness for `c3_sweep_spacing`: interval `10`, first sweep checked at
`100` and finished at `105`, second sweep checked at `200`. -/
theorem c3_sweep_spacing_witness :
    (100 : Nat) ≤ 105 ∧ (105 : Nat) ≤ 200 ∧ (200 : Nat) < DWORD_MOD
    ∧ (epics_loop envC3 10 100 105 { last_time_measured := 0, store := [] }).swept
        = true
    ∧ (epics_loop envC3 10 200 205
        (epics_loop envC3 10 100 105
          { last_time_measured := 0, store := [] }).state).swept = true
    ∧ ((10 : Nat) < 200 - 100
      ∧ (epics_loop envC3 10 200 205
          (epics_loop envC3 10 100 105
            { last_time_measured := 0, store := [] }).state).sleepMs
        = SS_SLEEP_PAUSE) :=
  ⟨by decide, by decide, by decide, by decide, by decide,
    c3_sweep_spacing envC3 envC3 10 100 105 200 205
      { last_time_measured := 0, store := [] }
      (by decide) (by decide) (by decide) (by decide) (by decide)⟩

/-- Trivial channel environment (no handles) for the first-sweep
witness. -/
def envC10 : Nat → ChanEnv := fun _ =>
  { hasHandle := false, enabled := false, name := "",
    outcome := ReadOutcome.timeout }

/-- C10: on the very first `epics_loop` invocation the static
`last_time_measured` is `0`, so for any clock value above the configured
interval (and below the `DWORD` range) a sweep runs immediately — there
is no initial one-interval wait. -/
theorem c10_first_call_sweeps (env : Nat → ChanEnv)
    (updateInterval now nowAfter : Nat) (store : List Nat)
    (hb : now < DWORD_MOD) (hgt : updateInterval < now) :
    (epics_loop env updateInterval now nowAfter
      { last_time_measured := 0, store := store }).swept = true := by
  rw [epics_loop_swept_iff]
  show updateInterval < dwordSub now 0
  rw [dwordSub_of_le now 0 (Nat.zero_le now) hb]
  omega

/-- Witness for `c10_first_call_sweeps`: default interval `10`, first
clock reading `11`. -/
theorem c10_first_call_sweeps_witness :
    (11 : Nat) < DWORD_MOD ∧ (10 : Nat) < 11
    ∧ (epics_loop envC10 10 11 12
        { last_time_measured := 0, store := [] }).swept = true :=
  ⟨by decide, by decide,
    c10_first_call_sweeps envC10 10 11 12 [] (by decide) (by decide)⟩

/-! ### Record emission (C5, C8) and store sizing (C6) -/

/-- Extracting 4-byte slices from a flattened list of 4-byte blocks:
slice `i` is block `i` (and empty past the end). -/
lemma flattenBlocks_extract (blocks : List (List Nat))
    (h4 : ∀ b ∈ blocks, b.length = 4) :
    ∀ i, ((blocks.flatten.drop (4 * i)).take 4) = blocks.getD i [] := by
  induction blocks with
  | nil => intro i; simp
  | cons b rest ih =>
      have hb : b.length = 4 := h4 b (List.mem_cons_self _ _)
      have hrest : ∀ x ∈ rest, x.length = 4 :=
        fun x hx => h4 x (List.mem_cons_of_mem _ hx)
      intro i
      cases i with
      | zero =>
          simp only [Nat.mul_zero, List.flatten_cons, List.drop_zero,
            List.getD_cons_zero]
          rw [List.take_append_of_le_length (by omega), ← hb,
            List.take_length]
      | succ j =>
          have harith : 4 * (j + 1) = b.length + 4 * j := by omega
          simp only [List.flatten_cons, List.getD_cons_succ, harith]
          rw [show (b ++ rest.flatten).drop (b.length + 4 * j)
              = rest.flatten.drop (4 * j) by simp [List.drop_append]]
          exact ih hrest j

/-- The measured-value list `epics_read` serializes has one slot per
channel. -/
lemma epics_read_values_length (n : Nat) (measured : List Nat) :
    (epics_read_values n measured).length = n := by
  simp [epics_read_values]

/-- C5: for every `n ≥ 0` and every state of the measured-value store,
the `"E000"` bank data emitted by `epics_read` is exactly `n` consecutive
4-byte float values in channel-index order — its total length is `4 * n`
bytes, the `i`-th 4-byte slice is the serialization of slot `i` for every
`i < n`, and `n = 0` yields an empty record. -/
theorem c5_record_is_4n_bytes (n : Nat) (measured : List Nat) :
    (epics_read_bank n measured).length = 4 * n
    ∧ (∀ i, ((epics_read_bank n measured).drop (4 * i)).take 4
        = if i < n then float32Bytes (measured.getD i 0) else [])
    ∧ epics_read_bank 0 measured = [] := by
  have h4 : ∀ b ∈ (epics_read_values n measured).map float32Bytes,
      b.length = 4 := by
    intro b hb
    obtain ⟨x, _, rfl⟩ := List.mem_map.mp hb
    rfl
  refine ⟨?_, ?_, rfl⟩
  · rw [epics_read_bank, List.length_flatten]
    have hrep : List.map List.length
        ((epics_read_values n measured).map float32Bytes)
        = List.replicate n 4 := by
      apply List.eq_replicate_iff.mpr
      refine ⟨by simp [epics_read_values_length], ?_⟩
      intro b hb
      obtain ⟨x, hx, rfl⟩ := List.mem_map.mp hb
      exact h4 x hx
    rw [hrep, List.sum_replicate, smul_eq_mul]
    exact Nat.mul_comm n 4
  · intro i
    rw [epics_read_bank, flattenBlocks_extract _ h4 i]
    by_cases hi : i < n
    · rw [if_pos hi]
      have hv : (epics_read_values n measured)[i]?
          = some (measured.getD i 0) := by
        simp [epics_read_values, List.getElem?_range hi]
      have : ((epics_read_values n measured).map float32Bytes)[i]?
          = some (float32Bytes (measured.getD i 0)) := by
        rw [List.getElem?_map, hv]
        rfl
      simp [List.getD, this]
    · rw [if_neg hi]
      have : ((epics_read_values n measured).map float32Bytes)[i]?
          = none := by
        apply List.getElem?_eq_none
        simp [epics_read_values_length]
        omega
      simp [List.getD, this]

/-- C6: at initialization, an absent `Measured` array is created as an
`n`-length zero array; an existing one from a prior run whose length is
at most `n` is resized to `n`, preserving the existing values and
zero-filling the new trailing slots (not reset). -/
theorem c6_measured_create_or_resize (prior : List Nat) (n : Nat)
    (hgrow : prior.length ≤ n) :
    frontend_init_measured false prior n = List.replicate n 0
    ∧ frontend_init_measured true prior n
        = prior ++ List.replicate (n - prior.length) 0 := by
  refine ⟨rfl, ?_⟩
  simp [frontend_init_measured, odbResize, List.take_of_length_le hgrow]

/-- Witness for `c6_measured_create_or_resize`: a 5-value prior store and
`n = 8` — the first 5 values survive and 3 zeros are appended. -/
theorem c6_measured_create_or_resize_witness :
    ([21, 22, 23, 24, 25] : List Nat).length ≤ 8
    ∧ (frontend_init_measured false [21, 22, 23, 24, 25] 8
        = List.replicate 8 0
      ∧ frontend_init_measured true [21, 22, 23, 24, 25] 8
        = [21, 22, 23, 24, 25]
            ++ List.replicate (8 - ([21, 22, 23, 24, 25] : List Nat).length) 0) :=
  ⟨by decide, c6_measured_create_or_resize [21, 22, 23, 24, 25] 8 (by decide)⟩

/-- C8: if `epics_read` runs before any sweep on a store that was created
fresh at initialization, it reads back the zero-initialized `n`-length
record: all `n` float slots are zero. -/
theorem c8_read_before_any_sweep_zero (n : Nat) (prior : List Nat) :
    epics_read_values n (frontend_init_measured false prior n)
      = List.replicate n 0 := by
  apply List.eq_replicate_iff.mpr
  refine ⟨epics_read_values_length n _, ?_⟩
  intro b hb
  simp only [epics_read_values, frontend_init_measured, List.mem_map] at hb
  obtain ⟨i, _, rfl⟩ := hb
  show (List.replicate n 0).getD i 0 = 0
  rw [List.getD_eq_getElem?_getD, List.getElem?_replicate]
  by_cases hi : i < n <;> simp [hi]

/-! ### Per-channel sampling behaviour (C4) and live settings (C7) -/

/-- Counterexample to C4 as stated: the claim says that whenever the
channel has a handle a read is issued, but `epics_get_measured` also
skips (returning success, issuing no read) a channel whose handle exists
while its live `Enabled` flag is false — e.g. channel 0 with a handle,
`Enabled[0] = false`, and a read that would have returned `7`. -/
theorem c4_counterexample :
    ¬ (∀ (e : Bool) (nm : String) (o : ReadOutcome) (s : List Nat) (ch : Nat),
        (epics_get_measured true e nm o s ch).didRead = true) := by
  intro h
  have := h false "UCN:ISO:PG9L" (ReadOutcome.ok 7) [0] 0
  simp [epics_get_measured] at this

/-- C4 (amended): `epics_get_measured` returns success without issuing
or storing anything when the channel has no handle OR its live `Enabled`
flag is false; otherwise it issues the read bounded by the fixed
30-time-unit `CAGET_TIMEOUT`, returns `FE_ERR_HW` with an error naming
the channel by its display name on timeout, and on success stores the
read scalar into the channel's slot and returns success. -/
theorem c4_sample_one_behavior (e : Bool) (nm : String) (o : ReadOutcome)
    (v : Nat) (s : List Nat) (ch : Nat) :
    epics_get_measured false e nm o s ch
      = { status := FE_SUCCESS, store := s, error := none,
          didRead := false, timeoutUsed := none }
    ∧ epics_get_measured true false nm o s ch
      = { status := FE_SUCCESS, store := s, error := none,
          didRead := false, timeoutUsed := none }
    ∧ epics_get_measured true true nm ReadOutcome.timeout s ch
      = { status := FE_ERR_HW, store := s,
          error := some ("Timeout on EPICS channel " ++ nm),
          didRead := true, timeoutUsed := some CAGET_TIMEOUT }
    ∧ epics_get_measured true true nm (ReadOutcome.ok v) s ch
      = { status := FE_SUCCESS, store := s.set ch v, error := none,
          didRead := true, timeoutUsed := some CAGET_TIMEOUT }
    ∧ CAGET_TIMEOUT = 30 :=
  ⟨rfl, rfl, rfl, rfl, rfl⟩

/-- Counterexample to C7 as stated: the claim says post-init changes to
`Enabled`/`Names` have no effect, but `epics_get_measured` consults the
live settings — with the same handle, store and read outcome, flipping
the channel's current `Enabled` flag changes the result, and changing its
current `Names` entry changes the reported error text. -/
theorem c7_counterexample :
    epics_get_measured true true "UCN:HE4:LVL" (ReadOutcome.ok 5) [0] 0
      ≠ epics_get_measured true false "UCN:HE4:LVL" (ReadOutcome.ok 5) [0] 0
    ∧ (epics_get_measured true true "NAME-A" ReadOutcome.timeout [0] 0).error
      ≠ (epics_get_measured true true "NAME-B" ReadOutcome.timeout [0] 0).error := by
  exact ⟨by decide, by decide⟩

/-- C7 (amended): `Enabled` and `Names` ARE re-read from the settings
store on every call (`epics_get_measured` reconnects a fresh settings
object each time), so post-init changes do affect sampling: a channel
whose live `Enabled` flag is false is skipped — no read, store untouched,
success returned — whatever its handle, and a timeout report uses the
live `Names` entry.  Only the set of channel handles is fixed at
initialization. -/
theorem c7_settings_reread_each_call (h : Bool) (nm : String)
    (o : ReadOutcome) (s : List Nat) (ch : Nat) :
    (epics_get_measured h false nm o s ch).didRead = false
    ∧ (epics_get_measured h false nm o s ch).store = s
    ∧ (epics_get_measured h false nm o s ch).status = FE_SUCCESS
    ∧ (epics_get_measured true true nm ReadOutcome.timeout s ch).error
        = some ("Timeout on EPICS channel " ++ nm) := by
  cases h <;> exact ⟨rfl, rfl, rfl, rfl⟩

/-! ### The inter-tick pause (C9) -/

/-- Trivial channel environment (no handles) for the pause
counterexample. -/
def envC9 : Nat → ChanEnv := fun _ =>
  { hasHandle := false, enabled := false, name := "",
    outcome := ReadOutcome.timeout }

/-- Counterexample to C9 as stated: the claim says the fixed pause is
smaller than the configured sampling interval, but with the default
`Update interval` of `10` the fixed `ss_sleep(500)` pause is larger —
an `epics_loop` invocation under the default configuration sleeps for
`SS_SLEEP_PAUSE = 500`, which is not less than
`DEFAULT_UPDATE_INTERVAL = 10`. -/
theorem c9_counterexample :
    (epics_loop envC9 DEFAULT_UPDATE_INTERVAL 1000 1001
        { last_time_measured := 0, store := [] }).sleepMs = SS_SLEEP_PAUSE
    ∧ ¬ (SS_SLEEP_PAUSE < DEFAULT_UPDATE_INTERVAL) := by
  refine ⟨?_, by decide⟩
  unfold epics_loop
  split <;> rfl

/-- C9 (amended): between ticks the poll cycle always yields for the
fixed `ss_sleep(500)` pause, independent of the configured sampling
interval; the pause only throttles how often the cycle checks the clock.
It is, however, not guaranteed to be smaller than the configured
interval (the default interval `10` is smaller than the pause `500`). -/
theorem c9_fixed_pause_independent (env : Nat → ChanEnv)
    (updateInterval now nowAfter : Nat) (st : LoopState) :
    (epics_loop env updateInterval now nowAfter st).sleepMs = SS_SLEEP_PAUSE
    ∧ (epics_loop env updateInterval now nowAfter st).sleepMs
        = (epics_loop env DEFAULT_UPDATE_INTERVAL now nowAfter st).sleepMs
    ∧ SS_SLEEP_PAUSE = 500 := by
  refine ⟨?_, ?_, rfl⟩
  · unfold epics_loop
    split <;> rfl
  · unfold epics_loop
    split <;> split <;> rfl

end EpicsFE
